import Mathlib

/-!
# Verification of the primate society simulation agent core

A shallow embedding, in exact rational arithmetic, of the agent cognition
and life-cycle engine of the simulation (`entities.py`, with the constants
of `config.py` and the resource bookkeeping of `environment.py`).

Modelling conventions:
* Python floats are modelled as exact rationals (`ℚ`); every numeric
  literal of the source is transcribed as the rational it denotes.
* All randomness (`random.random`, `random.uniform`, `random.choices`) is
  passed in as explicit parameters, so that each function is a pure
  function of its inputs and of the random draws.
* Euclidean distance comparisons `distance(p, q) < r` (with `r ≥ 0`) are
  modelled as comparisons of squared distances `sqDist p q < r^2`, which
  is equivalent and keeps everything inside `ℚ` (no square roots).
* Velocity and the wander target are pure movement state (never read by
  any of the verified operations); movement and strategy side effects on
  them are abstracted as opaque parameters of `update`.
* Python `min(xs, key=f)` returns the first element attaining the
  minimum; `minByFirst` below reproduces that tie-breaking exactly.
-/

namespace PrimateSim

/-! ## Constants from `config.py` -/

def MAP_WIDTH : ℚ := 800
def SCREEN_HEIGHT : ℚ := 800
def LEARNING_RATE : ℚ := 1/10
def INTERACTION_RADIUS : ℚ := 80
/-- Value `0.1667/10` of `METABOLISM_RATE` in `config.py`. -/
def METABOLISM_RATE : ℚ := 1667/100000
def AGE_INCREMENT : ℚ := 22/1000
def MIN_REPRODUCTION_AGE : ℚ := 12
def MATING_RANGE : ℚ := 100
def REPRODUCTION_ENERGY_COST : ℚ := 2/10
def REPRODUCTION_HP_COST : ℚ := 1/10
def MUTATION_RATE : ℚ := 1/10
def RESOURCE_PLANT_NUTRITION : ℚ := 30
def RESOURCE_MEAT_NUTRITION : ℚ := 60

inductive ResourceType
  | plant
  | meat
deriving DecidableEq, Repr

inductive Species
  | Gorilla
  | Chimp
  | Bonobo
deriving DecidableEq, Repr

/-- One species entry of `SPECIES_CONFIG` in `config.py`. -/
structure SpeciesCfg where
  max_hp : ℚ
  max_energy : ℚ
  base_speed : ℚ
  attack_power : ℚ
  defense : ℚ
  view_range : ℚ
  max_age : ℚ
  diet : List ResourceType
  social_recovery : ℚ
  food_requirement : ℚ
  reproduction_cooldown : ℚ
deriving DecidableEq, Repr

def SPECIES_CONFIG : Species → SpeciesCfg
  | .Gorilla =>
      { max_hp := 150, max_energy := 100, base_speed := 3/2, attack_power := 12
        defense := 20, view_range := 120, max_age := 1800, diet := [.plant]
        social_recovery := 1/2, food_requirement := 40, reproduction_cooldown := 3 }
  | .Chimp =>
      { max_hp := 100, max_energy := 120, base_speed := 3, attack_power := 10
        defense := 10, view_range := 110, max_age := 1575, diet := [.plant, .meat]
        social_recovery := 3/10, food_requirement := 30, reproduction_cooldown := 2 }
  | .Bonobo =>
      { max_hp := 80, max_energy := 110, base_speed := 5/2, attack_power := 6
        defense := 15, view_range := 140, max_age := 1800, diet := [.plant]
        social_recovery := 1, food_requirement := 25, reproduction_cooldown := 3 }

/-! ## Geometry helpers (`utils.py`)

`utils.distance` is the Euclidean distance; every use in the verified core
compares it with a nonnegative threshold, so we work with the square. -/

/-- Square of `utils.distance p q`. -/
def sqDist (p q : ℚ × ℚ) : ℚ := (q.1 - p.1) ^ 2 + (q.2 - p.2) ^ 2

/-- Function `utils.clamp(value, lo, hi) = max(lo, min(hi, value))`. -/
def clamp (value lo hi : ℚ) : ℚ := max lo (min hi value)

/-- Python `min(xs, key=f)`: first element attaining the minimal key;
`none` on the empty list. -/
def minByFirst {α : Type} (f : α → ℚ) : List α → Option α
  | [] => none
  | x :: xs => some (xs.foldl (fun b y => if f y < f b then y else b) x)

/-! ## Agent state (`entities.py`, class `Agent`) -/

inductive AState
  | idle
  | foraging
  | fleeing
  | fighting
  | dead
deriving DecidableEq, Repr

inductive DeathCause
  | hpDepleted
  | energyDepleted
  | oldAge
deriving DecidableEq, Repr

/-- The fields of `Agent` touched by the verified core.  The three
strategy-probability dictionaries are total maps from the fixed strategy
index sets of `config.py` (4 foraging, 3 combat, 3 flee strategies).
`escape_counted` models presence of the dynamic `_escape_counted`
attribute.  `last_attacker` is the non-owning back-reference, held by
agent id.  Velocity and wander target are not modelled (see header). -/
structure Agent where
  id : ℕ
  species : Species
  pos : ℚ × ℚ
  cfg : SpeciesCfg
  max_hp : ℚ
  hp : ℚ
  max_energy : ℚ
  energy : ℚ
  age : ℚ
  state : AState
  hunger_threshold : ℚ
  probsForaging : Fin 4 → ℚ
  probsCombat : Fin 3 → ℚ
  probsFlee : Fin 3 → ℚ
  threat_position : Option (ℚ × ℚ)
  last_attacker : Option ℕ
  communications : ℕ
  attacks : ℕ
  meals : ℕ
  escapes : ℕ
  offspringStat : ℕ
  time_since_last_reproduction : ℚ
  total_offspring : ℕ
  escape_counted : Bool
deriving DecidableEq

/-- Helper `random_distribution` of `Agent._initialize_random_strategy_probs`:
normalize the raw random draws to sum to 1. -/
def random_distribution {n : ℕ} (raw : Fin n → ℚ) : Fin n → ℚ :=
  fun i => raw i / ∑ j, raw j

/-- Constructor `Agent.__init__`, with the random draws (hunger threshold and the raw
values behind the three distributions) passed in explicitly. -/
def initAgent (id : ℕ) (species : Species) (position : ℚ × ℚ) (hunger : ℚ)
    (rawF : Fin 4 → ℚ) (rawC : Fin 3 → ℚ) (rawL : Fin 3 → ℚ) : Agent :=
  let cfg := SPECIES_CONFIG species
  { id := id, species := species, pos := position, cfg := cfg
    max_hp := cfg.max_hp, hp := cfg.max_hp
    max_energy := cfg.max_energy, energy := cfg.max_energy
    age := 0, state := .idle, hunger_threshold := hunger
    probsForaging := random_distribution rawF
    probsCombat := random_distribution rawC
    probsFlee := random_distribution rawL
    threat_position := none, last_attacker := none
    communications := 0, attacks := 0, meals := 0, escapes := 0, offspringStat := 0
    time_since_last_reproduction := 0, total_offspring := 0
    escape_counted := false }

/-- Method `Agent.calculate_fitness`. -/
def calculate_fitness (a : Agent) : ℚ :=
  a.hp / a.max_hp + a.energy / a.max_energy

/-- The blend `(1 - α)·self + α·teacher` of `Agent.learn_from`. -/
def blend (s t : ℚ) : ℚ := (1 - LEARNING_RATE) * s + LEARNING_RATE * t

/-- Method `Agent.learn_from(self, teacher)`.  Returned as the pair
(updated self, updated teacher) to make the frame effect on the teacher
explicit; the source mutates only `self`. -/
def learn_from (self teacher : Agent) : Agent × Agent :=
  if calculate_fitness teacher ≤ calculate_fitness self then (self, teacher)
  else
    ({ self with
        probsForaging := fun i => blend (self.probsForaging i) (teacher.probsForaging i)
        probsCombat := fun i => blend (self.probsCombat i) (teacher.probsCombat i)
        probsFlee := fun i => blend (self.probsFlee i) (teacher.probsFlee i)
        hunger_threshold := blend self.hunger_threshold teacher.hunger_threshold
        communications := self.communications + 1 },
      teacher)

/-- Method `Agent.can_reproduce`. -/
def can_reproduce (a : Agent) : Bool :=
  decide (a.state ≠ AState.dead) &&
  (decide (MIN_REPRODUCTION_AGE < a.age) && decide (a.age < MIN_REPRODUCTION_AGE + 10)) &&
  decide (a.max_energy * (4/10) < a.energy) &&
  decide (a.max_hp * (4/10) < a.hp) &&
  decide (a.cfg.reproduction_cooldown < a.time_since_last_reproduction)

/-- The per-context inheritance of `Agent.reproduce`: average the parents,
add the mutation, floor at 0, then renormalize when the total is positive. -/
def inheritProbs {n : ℕ} (p1 p2 m : Fin n → ℚ) : Fin n → ℚ :=
  let floored : Fin n → ℚ := fun i => max 0 ((p1 i + p2 i) / 2 + m i)
  let total : ℚ := ∑ i, floored i
  if 0 < total then fun i => floored i / total else floored

/-- Method `Agent.reproduce(self, mate)`.  Random draws passed explicitly:
`jx, jy` the position jitter (each `uniform(-30, 30)`), `childId` the
fresh id, `childHunger0, rawF, rawC, rawL` the draws of the offspring's
`Agent.__init__` (the three distributions and the hunger threshold are
then fully overwritten by inheritance), `mF, mC, mL` the per-strategy
mutations (each `uniform(-MUTATION_RATE, MUTATION_RATE)`) and `mh` the
hunger-threshold mutation (`uniform(-0.1, 0.1)`).  Returns
(child, updated self, updated mate). -/
def reproduce (self mate : Agent) (jx jy : ℚ) (childId : ℕ) (childHunger0 : ℚ)
    (rawF : Fin 4 → ℚ) (rawC rawL : Fin 3 → ℚ)
    (mF : Fin 4 → ℚ) (mC mL : Fin 3 → ℚ) (mh : ℚ) :
    Agent × Agent × Agent :=
  let child_position : ℚ × ℚ :=
    (clamp ((self.pos.1 + mate.pos.1) / 2 + jx) 20 (MAP_WIDTH - 20),
     clamp ((self.pos.2 + mate.pos.2) / 2 + jy) 20 (SCREEN_HEIGHT - 20))
  let child0 := initAgent childId self.species child_position childHunger0 rawF rawC rawL
  let child :=
    { child0 with
        probsForaging := inheritProbs self.probsForaging mate.probsForaging mF
        probsCombat := inheritProbs self.probsCombat mate.probsCombat mC
        probsFlee := inheritProbs self.probsFlee mate.probsFlee mL
        hunger_threshold :=
          clamp ((self.hunger_threshold + mate.hunger_threshold) / 2 + mh) (2/10) (8/10) }
  let self' :=
    { self with
        energy := self.energy - self.max_energy * REPRODUCTION_ENERGY_COST
        hp := self.hp - self.max_hp * REPRODUCTION_HP_COST
        time_since_last_reproduction := 0
        total_offspring := self.total_offspring + 1
        offspringStat := self.offspringStat + 1 }
  let mate' :=
    { mate with
        energy := mate.energy - mate.max_energy * REPRODUCTION_ENERGY_COST
        hp := mate.hp - mate.max_hp * REPRODUCTION_HP_COST
        time_since_last_reproduction := 0
        total_offspring := mate.total_offspring + 1
        offspringStat := mate.offspringStat + 1 }
  (child, self', mate')

/-! ## Environment resources (`environment.py`) -/

structure Resource where
  resource_type : ResourceType
  pos : ℚ × ℚ
  amount : ℚ
deriving DecidableEq, Repr

/-- Method `Environment.get_resources_in_range` (resources at distance `≤ radius`;
squared form, faithful for `radius ≥ 0`). -/
def get_resources_in_range (resources : List Resource) (position : ℚ × ℚ)
    (radius : ℚ) : List Resource :=
  resources.filter fun r => decide (sqDist position r.pos ≤ radius ^ 2)

/-- Method `Environment.remove_resource`: remove the first matching occurrence,
no-op when absent (`list.remove` guarded by the membership test). -/
def remove_resource (resources : List Resource) (r : Resource) : List Resource :=
  resources.erase r

/-- Membership of a resource type in a species' diet list. -/
def inDiet (cfg : SpeciesCfg) (t : ResourceType) : Bool :=
  cfg.diet.contains t

/-- Method `Agent.eat`: consume the closest edible resource within radius 15,
capping energy at `max_energy` and hp at `max_hp`; returns the updated
agent and the updated resource list. -/
def eat (a : Agent) (resources : List Resource) : Agent × List Resource :=
  let nearby := get_resources_in_range resources a.pos 15
  let edible := nearby.filter fun r => inDiet a.cfg r.resource_type
  match minByFirst (fun r => sqDist a.pos r.pos) edible with
  | none => (a, resources)
  | some r =>
      ({ a with
          energy := min a.max_energy (a.energy + r.amount)
          hp := min a.max_hp (a.hp + r.amount * (1/2))
          meals := a.meals + 1 },
        remove_resource resources r)

/-! ## Combat strategy kernels (`entities.py`, strategy classes)

Only the vital/state effects are modelled; the approach branches
(`move_towards`) touch only the unmodelled velocity. -/

/-- The live-enemy-within-range test shared by the combat code paths:
`a.state != 'dead' and a.species != self.species and distance < r`. -/
def isLiveEnemyWithin (self : Agent) (r : ℚ) (a : Agent) : Bool :=
  decide (a.state ≠ AState.dead) && decide (a.species ≠ self.species) &&
  decide (sqDist self.pos a.pos < r ^ 2)

/-- The attack branch of `AggressiveStrategy.execute` (target within 20
units): 1.5× attack damage, target forced into fleeing with threat and
last-attacker recorded, attacker takes 0.5× counter damage and the fixed
2.0 energy cost.  Returns (updated attacker, updated target). -/
def aggressiveAttack (agent target : Agent) : Agent × Agent :=
  let damage := agent.cfg.attack_power * (3/2)
  let target' :=
    { target with
        hp := target.hp - damage
        state := .fleeing
        threat_position := some agent.pos
        last_attacker := some agent.id }
  let agent' :=
    { agent with
        attacks := agent.attacks + 1
        hp := agent.hp - target.cfg.attack_power * (1/2)
        energy := agent.energy - 2 }
  (agent', target')

/-- Method `AggressiveStrategy.execute`: target the weakest live enemy within
100 units; attack when within 20 units, else only move (velocity-only,
identity on the modelled state).  The mutated target is written back into
the agent list by id. -/
def aggressiveExecute (agent : Agent) (others : List Agent) : Agent × List Agent :=
  let enemies := others.filter (isLiveEnemyWithin agent 100)
  match minByFirst (fun e => e.hp) enemies with
  | none => (agent, others)
  | some target =>
      if (20 : ℚ) ^ 2 < sqDist agent.pos target.pos then (agent, others)
      else
        let r := aggressiveAttack agent target
        (r.1, others.map fun x => if x.id = target.id then r.2 else x)

/-- The counter-attack branch of `DefensiveStrategy.execute` (attacker
within 20 units): 0.8× attack plus defense bonus as damage, 0.2× counter
damage, 1.0 energy cost, last-attacker cleared. -/
def defensiveAttack (agent target : Agent) : Agent × Agent :=
  let damage := agent.cfg.attack_power * (8/10) + agent.cfg.defense
  let target' := { target with hp := target.hp - damage }
  let agent' :=
    { agent with
        attacks := agent.attacks + 1
        hp := agent.hp - target.cfg.attack_power * (2/10)
        energy := agent.energy - 1
        last_attacker := none }
  (agent', target')

/-- The attack branch of `GroupStrategy.execute` with `nAllies` nearby
allies: group-bonus damage, target forced into fleeing, 0.3× counter
damage, 1.5 energy cost. -/
def groupAttack (agent target : Agent) (nAllies : ℕ) : Agent × Agent :=
  let group_bonus := (min nAllies 5 : ℚ) * (3/10)
  let damage := agent.cfg.attack_power * (1 + group_bonus)
  let target' :=
    { target with
        hp := target.hp - damage
        state := .fleeing
        threat_position := some agent.pos
        last_attacker := some agent.id }
  let agent' :=
    { agent with
        attacks := agent.attacks + 1
        hp := agent.hp - target.cfg.attack_power * (3/10)
        energy := agent.energy - (3/2) }
  (agent', target')

/-! ## Per-tick update (`Agent.update`, `Agent.should_fight`, `main.py` loop) -/

/-- The deterministic head of `Agent.update`: aging, metabolism, the
reproduction timer, and starvation damage below 20% energy. -/
def metabolize (a : Agent) : Agent :=
  let a :=
    { a with
        age := a.age + AGE_INCREMENT
        energy := a.energy - METABOLISM_RATE
        time_since_last_reproduction := a.time_since_last_reproduction + AGE_INCREMENT }
  if a.energy < a.max_energy * (2/10) then { a with hp := a.hp - 2/10 } else a

/-- The death condition and cause priority of `Agent.update`:
`hp <= 0 or energy <= 0 or age >= max_age`, cause chosen in that order. -/
def deathCause (a : Agent) : Option DeathCause :=
  if a.hp ≤ 0 ∨ a.energy ≤ 0 ∨ a.cfg.max_age ≤ a.age then
    some (if a.hp ≤ 0 then .hpDepleted
          else if a.energy ≤ 0 then .energyDepleted
          else .oldAge)
  else none

/-- Method `Agent.should_fight`. -/
def should_fight (self : Agent) (others : List Agent) : Bool :=
  if self.energy < self.max_energy * (4/10) then false
  else
    let nearby := others.filter (isLiveEnemyWithin self self.cfg.view_range)
    match minByFirst (fun e => sqDist self.pos e.pos) nearby with
    | none => false
    | some nearest_enemy =>
        decide (calculate_fitness nearest_enemy * (12/10) < calculate_fitness self)

/-- The state-machine priority of `Agent.update` (evaluated on the
post-metabolism agent; `sf` is the result of `should_fight`). -/
def decideState (a : Agent) (sf : Bool) : AState :=
  if a.hp / a.max_hp < 3/10 then .fleeing
  else if sf then .fighting
  else if a.energy / a.max_energy < a.hunger_threshold then .foraging
  else .idle

/-- State assignment plus the idle-branch clearing of the
`_escape_counted` attribute. -/
def applyState (a : Agent) (sf : Bool) : Agent :=
  let s := decideState a sf
  { a with state := s, escape_counted := if s = .idle then false else a.escape_counted }

/-- Method `Agent.update`.  The strategy execution (`execute_fleeing` /
`execute_combat` / `execute_foraging` / `wander`) and the trailing
movement-and-velocity-decay block are abstracted as `exec` and `mv`: both
are random, environment-dependent effects on fields outside the scope of
the temporal claims.  Death short-circuits before either runs. -/
def update (exec : AState → Agent → Agent) (mv : Agent → Agent)
    (others : List Agent) (a : Agent) : Agent :=
  let b := metabolize a
  match deathCause b with
  | some _ => { b with state := .dead }
  | none =>
      let b' := applyState b (should_fight b others)
      mv (exec b'.state b')

/-- The per-agent step of the main loop (`main.py`): dead agents are
skipped, live agents are updated. -/
def tick (exec : AState → Agent → Agent) (mv : Agent → Agent)
    (others : List Agent) (a : Agent) : Agent :=
  if a.state = .dead then a else update exec mv others a

/-! ## Concrete sample agents and resources (for evaluating the theorems) -/

def uniform4 : Fin 4 → ℚ := fun _ => 1

def uniform3 : Fin 3 → ℚ := fun _ => 1

def wGorilla : Agent := initAgent 0 .Gorilla (100, 100) (1/2) uniform4 uniform3 uniform3

def wChimp : Agent := initAgent 1 .Chimp (110, 100) (1/2) uniform4 uniform3 uniform3

def wWeakGorilla : Agent := { wGorilla with id := 2, hp := 50, energy := 40 }

def wWeakChimp : Agent := { wChimp with id := 3, hp := 20, energy := 30 }

def wLowHpGorilla : Agent := { wGorilla with id := 4, hp := 10 }

def wStarvedGorilla : Agent := { wGorilla with id := 5, energy := 1/100 }

def wDeadGorilla : Agent := { wGorilla with id := 6, state := .dead }

def wParentA : Agent := { wGorilla with id := 7, age := 13, time_since_last_reproduction := 4 }

def wParentB : Agent :=
  { wGorilla with id := 8, pos := (120, 100), age := 14, time_since_last_reproduction := 5 }

def wHungryGorilla : Agent := { wGorilla with id := 9, energy := 50 }

def wPlant : Resource := { resource_type := .plant, pos := (105, 100), amount := 30 }

/-! ## Helper lemmas -/

theorem clamp_mem (value lo hi : ℚ) (h : lo ≤ hi) :
    lo ≤ clamp value lo hi ∧ clamp value lo hi ≤ hi :=
  ⟨le_max_left _ _, max_le h (min_le_left _ _)⟩

theorem minByFirst_isSome {α : Type} (f : α → ℚ) (l : List α) :
    (∃ x, minByFirst f l = some x) ↔ l ≠ [] := by
  cases l <;> simp [minByFirst]

theorem blend_self (t : ℚ) : blend t t = t := by
  simp only [blend, LEARNING_RATE]; ring

theorem blend_toward (s t : ℚ) (h : s ≠ t) : |blend s t - t| < |s - t| := by
  have hb : blend s t - t = (9/10) * (s - t) := by
    simp only [blend, LEARNING_RATE]; ring
  rw [hb, abs_mul]
  have hst : 0 < |s - t| := abs_pos.mpr (sub_ne_zero.mpr h)
  have h9 : |(9/10 : ℚ)| = 9/10 := by norm_num
  rw [h9]
  nlinarith

theorem blend_fin_sum {n : ℕ} (s t : Fin n → ℚ)
    (hs : ∑ i, s i = 1) (ht : ∑ i, t i = 1) :
    ∑ i, blend (s i) (t i) = 1 := by
  simp only [blend, LEARNING_RATE]
  rw [Finset.sum_add_distrib, ← Finset.mul_sum, ← Finset.mul_sum, hs, ht]
  norm_num

theorem random_distribution_sum {n : ℕ} (raw : Fin n → ℚ) (h : 0 < ∑ j, raw j) :
    ∑ i, random_distribution raw i = 1 := by
  simp only [random_distribution]
  rw [← Finset.sum_div, div_self (ne_of_gt h)]

theorem inheritProbs_sum_one {n : ℕ} (hn : 0 < n) (hn10 : n < 10)
    (p1 p2 m : Fin n → ℚ)
    (h1 : ∑ i, p1 i = 1) (h2 : ∑ i, p2 i = 1)
    (hm : ∀ i, |m i| ≤ 1/10) :
    ∑ i, inheritProbs p1 p2 m i = 1 := by
  have hflnn : ∀ i, (0:ℚ) ≤ max 0 ((p1 i + p2 i) / 2 + m i) := fun i => le_max_left _ _
  have hnempty : Nonempty (Fin n) := Fin.pos_iff_nonempty.mp hn
  have havg : ∑ i, (p1 i + p2 i) / 2 = 1 := by
    rw [← Finset.sum_div, Finset.sum_add_distrib, h1, h2]
    norm_num
  have hn' : (0:ℚ) < (n:ℚ) := by exact_mod_cast hn
  obtain ⟨i0, hi0⟩ : ∃ i, 1 / (n : ℚ) ≤ (p1 i + p2 i) / 2 := by
    by_contra hcon
    push_neg at hcon
    have hlt : ∑ i, (p1 i + p2 i) / 2 < ∑ _i : Fin n, 1 / (n : ℚ) :=
      Finset.sum_lt_sum_of_nonempty Finset.univ_nonempty fun i _ => hcon i
    rw [havg, Finset.sum_const, Finset.card_univ, Fintype.card_fin, nsmul_eq_mul,
      mul_one_div, div_self (ne_of_gt hn')] at hlt
    exact lt_irrefl 1 hlt
  have h10 : (1:ℚ)/10 < 1/(n:ℚ) := by
    apply one_div_lt_one_div_of_lt hn'
    exact_mod_cast hn10
  have hfi0 : 0 < max 0 ((p1 i0 + p2 i0) / 2 + m i0) := by
    have hmi := (abs_le.mp (hm i0)).1
    have hpos : 0 < (p1 i0 + p2 i0) / 2 + m i0 := by linarith
    exact lt_max_of_lt_right hpos
  have htot : 0 < ∑ i, max 0 ((p1 i + p2 i) / 2 + m i) :=
    lt_of_lt_of_le hfi0 (Finset.single_le_sum (fun i _ => hflnn i) (Finset.mem_univ i0))
  have hrw : inheritProbs p1 p2 m
      = fun i => max 0 ((p1 i + p2 i) / 2 + m i) / ∑ j, max 0 ((p1 j + p2 j) / 2 + m j) := by
    simp only [inheritProbs]
    rw [if_pos htot]
  rw [hrw, ← Finset.sum_div, div_self (ne_of_gt htot)]

/-- C2: `learn_from(student, teacher)` is a no-op when the teacher's
fitness (hp/max_hp + energy/max_energy) does not strictly exceed the
student's; when it does, every strategy probability in every context and
the hunger threshold is replaced by `(1-0.1)·student + 0.1·teacher`
(hence each value moves strictly toward the teacher's corresponding
value, or stays equal if already equal), and the student's
communications counter increments by 1. -/
theorem learn_from_blend_spec (s t : Agent) :
    (calculate_fitness t ≤ calculate_fitness s → learn_from s t = (s, t)) ∧
    (calculate_fitness s < calculate_fitness t →
      (learn_from s t).1.hunger_threshold
          = (1 - 1/10) * s.hunger_threshold + (1/10) * t.hunger_threshold ∧
      (∀ i, (learn_from s t).1.probsForaging i
          = (1 - 1/10) * s.probsForaging i + (1/10) * t.probsForaging i) ∧
      (∀ i, (learn_from s t).1.probsCombat i
          = (1 - 1/10) * s.probsCombat i + (1/10) * t.probsCombat i) ∧
      (∀ i, (learn_from s t).1.probsFlee i
          = (1 - 1/10) * s.probsFlee i + (1/10) * t.probsFlee i) ∧
      (learn_from s t).1.communications = s.communications + 1 ∧
      (∀ i, s.probsForaging i ≠ t.probsForaging i →
        |(learn_from s t).1.probsForaging i - t.probsForaging i|
          < |s.probsForaging i - t.probsForaging i|) ∧
      (∀ i, s.probsForaging i = t.probsForaging i →
        (learn_from s t).1.probsForaging i = s.probsForaging i) ∧
      (∀ i, s.probsCombat i ≠ t.probsCombat i →
        |(learn_from s t).1.probsCombat i - t.probsCombat i|
          < |s.probsCombat i - t.probsCombat i|) ∧
      (∀ i, s.probsCombat i = t.probsCombat i →
        (learn_from s t).1.probsCombat i = s.probsCombat i) ∧
      (∀ i, s.probsFlee i ≠ t.probsFlee i →
        |(learn_from s t).1.probsFlee i - t.probsFlee i|
          < |s.probsFlee i - t.probsFlee i|) ∧
      (∀ i, s.probsFlee i = t.probsFlee i →
        (learn_from s t).1.probsFlee i = s.probsFlee i) ∧
      (s.hunger_threshold ≠ t.hunger_threshold →
        |(learn_from s t).1.hunger_threshold - t.hunger_threshold|
          < |s.hunger_threshold - t.hunger_threshold|) ∧
      (s.hunger_threshold = t.hunger_threshold →
        (learn_from s t).1.hunger_threshold = s.hunger_threshold)) := by
  constructor
  · intro h
    simp [learn_from, h]
  · intro h
    have hn : ¬ calculate_fitness t ≤ calculate_fitness s := not_le.mpr h
    have hb : (learn_from s t).1 =
        { s with
            probsForaging := fun i => blend (s.probsForaging i) (t.probsForaging i)
            probsCombat := fun i => blend (s.probsCombat i) (t.probsCombat i)
            probsFlee := fun i => blend (s.probsFlee i) (t.probsFlee i)
            hunger_threshold := blend s.hunger_threshold t.hunger_threshold
            communications := s.communications + 1 } := by
      simp [learn_from, hn]
    rw [hb]
    refine ⟨by simp [blend, LEARNING_RATE], fun i => by simp [blend, LEARNING_RATE],
      fun i => by simp [blend, LEARNING_RATE], fun i => by simp [blend, LEARNING_RATE],
      rfl, ?_, ?_, ?_, ?_, ?_, ?_, ?_, ?_⟩
    · exact fun i hne => blend_toward _ _ hne
    · exact fun i heq => by simp only [heq, blend_self]
    · exact fun i hne => blend_toward _ _ hne
    · exact fun i heq => by simp only [heq, blend_self]
    · exact fun i hne => blend_toward _ _ hne
    · exact fun i heq => by simp only [heq, blend_self]
    · exact fun hne => blend_toward _ _ hne
    · exact fun heq => by simp only [heq, blend_self]

/-- Witness for C2: a no-op call on a fitter student, and a learning call
on a weaker student incrementing its communications counter. -/
theorem learn_from_blend_spec_witness :
    learn_from wGorilla wWeakGorilla = (wGorilla, wWeakGorilla) ∧
    (learn_from wWeakGorilla wGorilla).1.communications = wWeakGorilla.communications + 1 :=
  ⟨(learn_from_blend_spec wGorilla wWeakGorilla).1 (by
      norm_num [calculate_fitness, wWeakGorilla, wGorilla, initAgent, SPECIES_CONFIG]),
   ((learn_from_blend_spec wWeakGorilla wGorilla).2 (by
      norm_num [calculate_fitness, wWeakGorilla, wGorilla, initAgent, SPECIES_CONFIG])).2.2.2.2.1⟩

/-- C10: `learn_from` modifies only the calling (student) agent: the
teacher comes back unchanged, and on the student every field other than
the three strategy-probability distributions, the hunger threshold and
the communications counter is unchanged (vitals, counters, position,
state, memory included). -/
theorem learn_from_frame_spec (s t : Agent) :
    (learn_from s t).2 = t ∧
    (learn_from s t).1.id = s.id ∧
    (learn_from s t).1.species = s.species ∧
    (learn_from s t).1.pos = s.pos ∧
    (learn_from s t).1.cfg = s.cfg ∧
    (learn_from s t).1.max_hp = s.max_hp ∧
    (learn_from s t).1.hp = s.hp ∧
    (learn_from s t).1.max_energy = s.max_energy ∧
    (learn_from s t).1.energy = s.energy ∧
    (learn_from s t).1.age = s.age ∧
    (learn_from s t).1.state = s.state ∧
    (learn_from s t).1.threat_position = s.threat_position ∧
    (learn_from s t).1.last_attacker = s.last_attacker ∧
    (learn_from s t).1.attacks = s.attacks ∧
    (learn_from s t).1.meals = s.meals ∧
    (learn_from s t).1.escapes = s.escapes ∧
    (learn_from s t).1.offspringStat = s.offspringStat ∧
    (learn_from s t).1.time_since_last_reproduction = s.time_since_last_reproduction ∧
    (learn_from s t).1.total_offspring = s.total_offspring ∧
    (learn_from s t).1.escape_counted = s.escape_counted := by
  unfold learn_from
  split_ifs <;> simp

/-- C6: `should_fight` returns true exactly when energy is at least 40%
of max energy, some live agent of a different species lies within view
range, and the agent's fitness strictly exceeds 1.2 times the fitness of
the nearest such enemy; in particular it is false whenever the nearest
live enemy's fitness times 1.2 meets or exceeds the agent's own fitness. -/
theorem should_fight_spec (self : Agent) (others : List Agent) :
    (should_fight self others = true ↔
      (self.max_energy * (4/10) ≤ self.energy ∧
        ∃ nearest_enemy,
          minByFirst (fun e => sqDist self.pos e.pos)
              (others.filter (isLiveEnemyWithin self self.cfg.view_range)) = some nearest_enemy ∧
          calculate_fitness nearest_enemy * (12/10) < calculate_fitness self)) ∧
    (others.filter (isLiveEnemyWithin self self.cfg.view_range) ≠ [] ↔
      ∃ e, minByFirst (fun x => sqDist self.pos x.pos)
          (others.filter (isLiveEnemyWithin self self.cfg.view_range)) = some e) ∧
    (∀ nearest_enemy,
        minByFirst (fun e => sqDist self.pos e.pos)
            (others.filter (isLiveEnemyWithin self self.cfg.view_range)) = some nearest_enemy →
        calculate_fitness self ≤ calculate_fitness nearest_enemy * (12/10) →
        should_fight self others = false) := by
  have heq : should_fight self others =
      if self.energy < self.max_energy * (4/10) then false
      else
        match minByFirst (fun e => sqDist self.pos e.pos)
            (others.filter (isLiveEnemyWithin self self.cfg.view_range)) with
        | none => false
        | some nearest_enemy =>
            decide (calculate_fitness nearest_enemy * (12/10) < calculate_fitness self) := rfl
  refine ⟨?_, (minByFirst_isSome _ _).symm, ?_⟩
  · rw [heq]
    split_ifs with h
    · simp only [Bool.false_eq_true, false_iff]
      rintro ⟨hc, -⟩
      exact absurd hc (not_le.mpr h)
    · cases hmin : minByFirst (fun e => sqDist self.pos e.pos)
          (others.filter (isLiveEnemyWithin self self.cfg.view_range)) with
      | none =>
          simp only [hmin, Bool.false_eq_true, false_iff]
          rintro ⟨-, e, he, -⟩
          exact Option.noConfusion he
      | some nearest =>
          simp only [hmin, decide_eq_true_eq, Option.some_inj]
          constructor
          · intro hfit
            exact ⟨not_lt.mp h, nearest, rfl, hfit⟩
          · rintro ⟨-, e, he, hfit⟩
            rwa [he]
  · intro nearest hmin hle
    rw [heq]
    split_ifs with h
    · rfl
    · simp only [hmin, decide_eq_false_iff_not, not_lt]
      exact hle

/-- Witness for C6: a strong gorilla attacks a weak chimp in range; the
weak chimp, outmatched, does not fight the gorilla. -/
theorem should_fight_spec_witness :
    should_fight wGorilla [wWeakChimp] = true ∧
    should_fight wWeakChimp [wGorilla] = false := by
  have hf1 : List.filter (isLiveEnemyWithin wGorilla wGorilla.cfg.view_range) [wWeakChimp]
      = [wWeakChimp] := by
    norm_num [List.filter, isLiveEnemyWithin, sqDist, wGorilla, wWeakChimp, wChimp,
      initAgent, SPECIES_CONFIG]
    rfl
  have hf2 : List.filter (isLiveEnemyWithin wWeakChimp wWeakChimp.cfg.view_range) [wGorilla]
      = [wGorilla] := by
    norm_num [List.filter, isLiveEnemyWithin, sqDist, wGorilla, wWeakChimp, wChimp,
      initAgent, SPECIES_CONFIG]
    rfl
  constructor
  · apply (should_fight_spec wGorilla [wWeakChimp]).1.mpr
    refine ⟨?_, wWeakChimp, ?_, ?_⟩
    · norm_num [wGorilla, initAgent, SPECIES_CONFIG]
    · rw [hf1]; rfl
    · norm_num [calculate_fitness, wGorilla, wWeakChimp, wChimp, initAgent, SPECIES_CONFIG]
  · apply (should_fight_spec wWeakChimp [wGorilla]).2.2 wGorilla
    · rw [hf2]; rfl
    · norm_num [calculate_fitness, wGorilla, wWeakChimp, wChimp, initAgent, SPECIES_CONFIG]

/-- C5: the surviving agent's state is chosen by strict priority (on the
post-metabolism vitals): hp ratio below 0.30 gives `fleeing`; else a true
fight-readiness predicate gives `fighting`; else energy ratio below the
personal hunger threshold gives `foraging`; else `idle`, which also
clears a stale escape-counted flag.  The final conjunct ties this to the
per-tick `update`. -/
theorem state_priority_spec (exec : AState → Agent → Agent) (mv : Agent → Agent)
    (others : List Agent) (a : Agent) (sf : Bool) :
    ((a.hp / a.max_hp < 3/10 → (applyState a sf).state = AState.fleeing) ∧
     (3/10 ≤ a.hp / a.max_hp → sf = true → (applyState a sf).state = AState.fighting) ∧
     (3/10 ≤ a.hp / a.max_hp → sf = false → a.energy / a.max_energy < a.hunger_threshold →
        (applyState a sf).state = AState.foraging) ∧
     (3/10 ≤ a.hp / a.max_hp → sf = false → a.hunger_threshold ≤ a.energy / a.max_energy →
        (applyState a sf).state = AState.idle ∧ (applyState a sf).escape_counted = false)) ∧
    (deathCause (metabolize a) = none →
      update exec mv others a =
        mv (exec (applyState (metabolize a) (should_fight (metabolize a) others)).state
              (applyState (metabolize a) (should_fight (metabolize a) others)))) := by
  constructor
  · refine ⟨?_, ?_, ?_, ?_⟩
    · intro h
      simp [applyState, decideState, h]
    · intro h hsf
      simp [applyState, decideState, not_lt.mpr h, hsf]
    · intro h hsf hh
      simp [applyState, decideState, not_lt.mpr h, hsf, hh]
    · intro h hsf hh
      simp [applyState, decideState, not_lt.mpr h, hsf, not_lt.mpr hh]
  · intro h
    simp [update, h]

/-- Witness for C5: a low-hp gorilla flees; a healthy sated gorilla
idles with the escape flag cleared. -/
theorem state_priority_spec_witness :
    (applyState wLowHpGorilla false).state = AState.fleeing ∧
    (applyState wGorilla false).state = AState.idle ∧
    (applyState wGorilla false).escape_counted = false := by
  have h1 := (state_priority_spec (fun _ x => x) id [] wLowHpGorilla false).1.1 (by
    norm_num [wLowHpGorilla, wGorilla, initAgent, SPECIES_CONFIG])
  have h2 := (state_priority_spec (fun _ x => x) id [] wGorilla false).1.2.2.2
      (by norm_num [wGorilla, initAgent, SPECIES_CONFIG]) rfl
      (by norm_num [wGorilla, initAgent, SPECIES_CONFIG])
  exact ⟨h1, h2.1, h2.2⟩

theorem deathCause_none_iff (b : Agent) :
    deathCause b = none ↔ (0 < b.hp ∧ 0 < b.energy ∧ b.age < b.cfg.max_age) := by
  unfold deathCause
  split_ifs with h
  · constructor
    · intro hn
      simp at hn
    · intro hc
      rcases h with h | h | h
      · exact absurd hc.1 (not_lt.mpr h)
      · exact absurd hc.2.1 (not_lt.mpr h)
      · exact absurd hc.2.2 (not_lt.mpr h)
  · push_neg at h
    simp [h]

/-- C1: each context's strategy-probability distribution sums to exactly
1 (hence is within the claimed 1e-6 tolerance of 1.0): after
construction (whenever the raw random draws have positive total), after
every `learn_from` call, and for the offspring built by `reproduce`
(average of parents, mutation bounded by the mutation rate, floor at 0,
renormalize). -/
theorem prob_sum_invariant (s t : Agent)
    (hsF : ∑ i, s.probsForaging i = 1) (hsC : ∑ i, s.probsCombat i = 1)
    (hsL : ∑ i, s.probsFlee i = 1)
    (htF : ∑ i, t.probsForaging i = 1) (htC : ∑ i, t.probsCombat i = 1)
    (htL : ∑ i, t.probsFlee i = 1) :
    (∀ (n : ℕ) (raw : Fin n → ℚ), 0 < ∑ j, raw j →
        ∑ i, random_distribution raw i = 1) ∧
    (∑ i, (learn_from s t).1.probsForaging i = 1 ∧
     ∑ i, (learn_from s t).1.probsCombat i = 1 ∧
     ∑ i, (learn_from s t).1.probsFlee i = 1) ∧
    (∀ (jx jy : ℚ) (childId : ℕ) (childHunger0 : ℚ) (rawF : Fin 4 → ℚ)
        (rawC rawL : Fin 3 → ℚ) (mF : Fin 4 → ℚ) (mC mL : Fin 3 → ℚ) (mh : ℚ),
      (∀ i, |mF i| ≤ MUTATION_RATE) → (∀ i, |mC i| ≤ MUTATION_RATE) →
      (∀ i, |mL i| ≤ MUTATION_RATE) →
      (∑ i, (reproduce s t jx jy childId childHunger0 rawF rawC rawL
          mF mC mL mh).1.probsForaging i = 1 ∧
       ∑ i, (reproduce s t jx jy childId childHunger0 rawF rawC rawL
          mF mC mL mh).1.probsCombat i = 1 ∧
       ∑ i, (reproduce s t jx jy childId childHunger0 rawF rawC rawL
          mF mC mL mh).1.probsFlee i = 1)) := by
  refine ⟨fun n raw h => random_distribution_sum raw h, ?_, ?_⟩
  · by_cases hc : calculate_fitness t ≤ calculate_fitness s
    · simp only [learn_from, if_pos hc]
      exact ⟨hsF, hsC, hsL⟩
    · simp only [learn_from, if_neg hc]
      exact ⟨blend_fin_sum _ _ hsF htF, blend_fin_sum _ _ hsC htC, blend_fin_sum _ _ hsL htL⟩
  · intro jx jy childId childHunger0 rawF rawC rawL mF mC mL mh hmF hmC hmL
    have hF : (reproduce s t jx jy childId childHunger0 rawF rawC rawL
        mF mC mL mh).1.probsForaging = inheritProbs s.probsForaging t.probsForaging mF := rfl
    have hC : (reproduce s t jx jy childId childHunger0 rawF rawC rawL
        mF mC mL mh).1.probsCombat = inheritProbs s.probsCombat t.probsCombat mC := rfl
    have hL : (reproduce s t jx jy childId childHunger0 rawF rawC rawL
        mF mC mL mh).1.probsFlee = inheritProbs s.probsFlee t.probsFlee mL := rfl
    rw [hF, hC, hL]
    exact ⟨inheritProbs_sum_one (by norm_num) (by norm_num) _ _ _ hsF htF hmF,
      inheritProbs_sum_one (by norm_num) (by norm_num) _ _ _ hsC htC hmC,
      inheritProbs_sum_one (by norm_num) (by norm_num) _ _ _ hsL htL hmL⟩

/-- Witness for C1: the concrete sample agents, with uniform raw draws
and a concrete mutation vector. -/
theorem prob_sum_invariant_witness :
    (∑ i, random_distribution uniform4 i = 1) ∧
    ∑ i, (learn_from wWeakGorilla wGorilla).1.probsForaging i = 1 ∧
    ∑ i, (reproduce wWeakGorilla wGorilla 0 0 10 (1/2) uniform4 uniform3 uniform3
        (fun _ => 1/20) (fun _ => 1/20) (fun _ => 1/20) 0).1.probsForaging i = 1 := by
  have hu4 : (0:ℚ) < ∑ j, uniform4 j := by simp [uniform4]
  have hu3 : (0:ℚ) < ∑ j, uniform3 j := by simp [uniform3]
  have hF : ∑ i, wWeakGorilla.probsForaging i = 1 := random_distribution_sum uniform4 hu4
  have hC : ∑ i, wWeakGorilla.probsCombat i = 1 := random_distribution_sum uniform3 hu3
  have hL : ∑ i, wWeakGorilla.probsFlee i = 1 := random_distribution_sum uniform3 hu3
  have hF' : ∑ i, wGorilla.probsForaging i = 1 := random_distribution_sum uniform4 hu4
  have hC' : ∑ i, wGorilla.probsCombat i = 1 := random_distribution_sum uniform3 hu3
  have hL' : ∑ i, wGorilla.probsFlee i = 1 := random_distribution_sum uniform3 hu3
  have h := prob_sum_invariant wWeakGorilla wGorilla hF hC hL hF' hC' hL'
  exact ⟨h.1 4 uniform4 hu4, h.2.1.1,
    (h.2.2 0 0 10 (1/2) uniform4 uniform3 uniform3 (fun _ => 1/20) (fun _ => 1/20)
        (fun _ => 1/20) 0
        (fun i => by rw [abs_of_pos (by norm_num : (0:ℚ) < 1/20)]; norm_num [MUTATION_RATE])
        (fun i => by rw [abs_of_pos (by norm_num : (0:ℚ) < 1/20)]; norm_num [MUTATION_RATE])
        (fun i => by rw [abs_of_pos (by norm_num : (0:ℚ) < 1/20)]; norm_num [MUTATION_RATE])).1⟩

/-- C3: after metabolism, the death check fires exactly when hp ≤ 0 or
energy ≤ 0 or age ≥ species max age, with the cause chosen in priority
order hp, energy, old age; on death the state becomes dead and the rest
of the tick (state machine, strategy execution, movement) is skipped; a
dead agent is skipped by every subsequent main-loop tick, so it never
leaves the dead state and is never updated again. -/
theorem death_check_spec (exec : AState → Agent → Agent) (mv : Agent → Agent)
    (others : List Agent) (a b : Agent) :
    ((deathCause b).isSome ↔ (b.hp ≤ 0 ∨ b.energy ≤ 0 ∨ b.cfg.max_age ≤ b.age)) ∧
    (deathCause b = some DeathCause.hpDepleted ↔ b.hp ≤ 0) ∧
    (deathCause b = some DeathCause.energyDepleted ↔ (0 < b.hp ∧ b.energy ≤ 0)) ∧
    (deathCause b = some DeathCause.oldAge ↔
        (0 < b.hp ∧ 0 < b.energy ∧ b.cfg.max_age ≤ b.age)) ∧
    ((metabolize a).cfg = a.cfg ∧ (metabolize a).age = a.age + AGE_INCREMENT) ∧
    ((deathCause (metabolize a)).isSome →
        update exec mv others a = { metabolize a with state := AState.dead } ∧
        (update exec mv others a).state = AState.dead) ∧
    (a.state = AState.dead → ∀ n : ℕ, (tick exec mv others)^[n] a = a) := by
  refine ⟨?_, ?_, ?_, ?_, ?_, ?_, ?_⟩
  · unfold deathCause
    split_ifs with h <;> simp [h]
  · unfold deathCause
    split_ifs with h h1 <;> simp_all
  · unfold deathCause
    split_ifs with h h1 h2 <;> simp_all
  · unfold deathCause
    split_ifs with h h1 h2 <;> simp_all
  · constructor
    · simp only [metabolize]
      split_ifs <;> rfl
    · simp only [metabolize]
      split_ifs <;> rfl
  · intro h
    obtain ⟨c, hc⟩ := Option.isSome_iff_exists.mp h
    constructor
    · simp [update, hc]
    · simp [update, hc]
  · intro hdead n
    have ht : tick exec mv others a = a := by simp [tick, hdead]
    induction n with
    | zero => rfl
    | succ k ih => rw [Function.iterate_succ_apply, ht, ih]

/-- Witness for C3: a starved gorilla dies of energy depletion within one
update, and a dead gorilla is unchanged by five further ticks. -/
theorem death_check_spec_witness :
    deathCause (metabolize wStarvedGorilla) = some DeathCause.energyDepleted ∧
    (update (fun _ x => x) id [] wStarvedGorilla).state = AState.dead ∧
    (tick (fun _ x => x) id [])^[5] wDeadGorilla = wDeadGorilla := by
  have h1 := (death_check_spec (fun _ x => x) id [] wStarvedGorilla
      (metabolize wStarvedGorilla)).2.2.1.mpr
    ⟨by norm_num [metabolize, wStarvedGorilla, wGorilla, initAgent, SPECIES_CONFIG,
        METABOLISM_RATE, AGE_INCREMENT],
     by norm_num [metabolize, wStarvedGorilla, wGorilla, initAgent, SPECIES_CONFIG,
        METABOLISM_RATE, AGE_INCREMENT]⟩
  refine ⟨h1, ?_, ?_⟩
  · exact ((death_check_spec (fun _ x => x) id [] wStarvedGorilla wStarvedGorilla).2.2.2.2.2.1
      (by rw [h1]; rfl)).2
  · exact (death_check_spec (fun _ x => x) id [] wDeadGorilla wDeadGorilla).2.2.2.2.2.2 rfl 5

/-- C4: vitals need not stay in bounds mid-tick, but an agent that
survives its next death check has 0 < hp ≤ max_hp and
0 < energy ≤ max_energy (given the pre-tick upper bounds, which every
operation preserves); eating caps hp at max_hp and energy at max_energy,
and no other modelled operation (metabolism, reproduction costs, the
three combat attack kernels, learning) raises either vital above its
species maximum — they only decrease or preserve vitals. -/
theorem vitals_bounds_spec (a : Agent) (env : List Resource)
    (hmhp : 0 ≤ a.max_hp) (hmen : 0 ≤ a.max_energy)
    (hhp : a.hp ≤ a.max_hp) (hen : a.energy ≤ a.max_energy)
    (hsurv : deathCause (metabolize a) = none) :
    (0 < (metabolize a).hp ∧ (metabolize a).hp ≤ a.max_hp ∧
     0 < (metabolize a).energy ∧ (metabolize a).energy ≤ a.max_energy) ∧
    ((eat a env).1.hp ≤ a.max_hp ∧ (eat a env).1.energy ≤ a.max_energy) ∧
    ((metabolize a).hp ≤ a.hp ∧ (metabolize a).energy ≤ a.energy) ∧
    (∀ (m : Agent) (jx jy : ℚ) (childId : ℕ) (childHunger0 : ℚ) (rawF : Fin 4 → ℚ)
        (rawC rawL : Fin 3 → ℚ) (mF : Fin 4 → ℚ) (mC mL : Fin 3 → ℚ) (mh : ℚ),
        (reproduce a m jx jy childId childHunger0 rawF rawC rawL mF mC mL mh).2.1.hp ≤ a.hp ∧
        (reproduce a m jx jy childId childHunger0 rawF rawC rawL
          mF mC mL mh).2.1.energy ≤ a.energy) ∧
    (∀ t : Agent, 0 ≤ t.cfg.attack_power →
        (aggressiveAttack a t).1.hp ≤ a.hp ∧ (aggressiveAttack a t).1.energy ≤ a.energy ∧
        (defensiveAttack a t).1.hp ≤ a.hp ∧ (defensiveAttack a t).1.energy ≤ a.energy ∧
        (∀ nAllies : ℕ, (groupAttack a t nAllies).1.hp ≤ a.hp ∧
          (groupAttack a t nAllies).1.energy ≤ a.energy)) ∧
    (∀ t : Agent, 0 ≤ t.cfg.attack_power → 0 ≤ t.cfg.defense →
        (aggressiveAttack t a).2.hp ≤ a.hp ∧ (aggressiveAttack t a).2.energy = a.energy ∧
        (defensiveAttack t a).2.hp ≤ a.hp ∧
        (∀ nAllies : ℕ, (groupAttack t a nAllies).2.hp ≤ a.hp)) ∧
    (∀ t : Agent, (learn_from a t).1.hp = a.hp ∧ (learn_from a t).1.energy = a.energy ∧
        (learn_from t a).2.hp = a.hp ∧ (learn_from t a).2.energy = a.energy) := by
  have hmb : (metabolize a).hp ≤ a.hp ∧ (metabolize a).energy ≤ a.energy := by
    simp only [metabolize]
    split_ifs with h
    · constructor
      · show a.hp - 2/10 ≤ a.hp
        linarith
      · show a.energy - METABOLISM_RATE ≤ a.energy
        simp only [METABOLISM_RATE]
        linarith
    · constructor
      · show a.hp ≤ a.hp
        exact le_refl _
      · show a.energy - METABOLISM_RATE ≤ a.energy
        simp only [METABOLISM_RATE]
        linarith
  obtain ⟨hpos1, hpos2, -⟩ := (deathCause_none_iff _).mp hsurv
  refine ⟨⟨hpos1, le_trans hmb.1 hhp, hpos2, le_trans hmb.2 hen⟩, ?_, hmb, ?_, ?_, ?_, ?_⟩
  · simp only [eat]
    cases hmin : minByFirst (fun r => sqDist a.pos r.pos)
        ((get_resources_in_range env a.pos 15).filter
          fun r => inDiet a.cfg r.resource_type) with
    | none => simpa [hmin] using ⟨hhp, hen⟩
    | some r =>
        simp only [hmin]
        exact ⟨min_le_left _ _, min_le_left _ _⟩
  · intro m jx jy childId childHunger0 rawF rawC rawL mF mC mL mh
    constructor
    · show a.hp - a.max_hp * REPRODUCTION_HP_COST ≤ a.hp
      simp only [REPRODUCTION_HP_COST]
      nlinarith
    · show a.energy - a.max_energy * REPRODUCTION_ENERGY_COST ≤ a.energy
      simp only [REPRODUCTION_ENERGY_COST]
      nlinarith
  · intro t hap
    refine ⟨?_, ?_, ?_, ?_, ?_⟩
    · show a.hp - t.cfg.attack_power * (1/2) ≤ a.hp
      nlinarith
    · show a.energy - 2 ≤ a.energy
      linarith
    · show a.hp - t.cfg.attack_power * (2/10) ≤ a.hp
      nlinarith
    · show a.energy - 1 ≤ a.energy
      linarith
    · intro nAllies
      constructor
      · show a.hp - t.cfg.attack_power * (3/10) ≤ a.hp
        nlinarith
      · show a.energy - 3/2 ≤ a.energy
        linarith
  · intro t hap hdef
    refine ⟨?_, rfl, ?_, ?_⟩
    · show a.hp - t.cfg.attack_power * (3/2) ≤ a.hp
      nlinarith
    · show a.hp - (t.cfg.attack_power * (8/10) + t.cfg.defense) ≤ a.hp
      nlinarith
    · intro nAllies
      show a.hp - t.cfg.attack_power * (1 + min (nAllies : ℚ) 5 * (3/10)) ≤ a.hp
      have hb : (0:ℚ) ≤ min (nAllies : ℚ) 5 := le_min (Nat.cast_nonneg _) (by norm_num)
      nlinarith
  · intro t
    unfold learn_from
    split_ifs <;> simp

/-- Witness for C4: the healthy sample gorilla survives its death check
with vitals in bounds. -/
theorem vitals_bounds_spec_witness :
    0 < (metabolize wGorilla).hp ∧ (metabolize wGorilla).hp ≤ wGorilla.max_hp ∧
    0 < (metabolize wGorilla).energy ∧ (metabolize wGorilla).energy ≤ wGorilla.max_energy := by
  have h := vitals_bounds_spec wGorilla []
    (by norm_num [wGorilla, initAgent, SPECIES_CONFIG])
    (by norm_num [wGorilla, initAgent, SPECIES_CONFIG])
    (by norm_num [wGorilla, initAgent, SPECIES_CONFIG])
    (by norm_num [wGorilla, initAgent, SPECIES_CONFIG])
    ((deathCause_none_iff (metabolize wGorilla)).mpr
      (by norm_num [metabolize, wGorilla, initAgent, SPECIES_CONFIG,
        METABOLISM_RATE, AGE_INCREMENT]))
  exact h.1

/-- C7: for two eligible (`can_reproduce`) same-species parents within
mating range, `reproduce` returns exactly one offspring of the parents'
species, positioned inside the configured map bounds, whose three
strategy-probability distributions each sum to 1; each parent pays the
fixed energy and hp cost fractions, has its reproduction timer reset to
zero, and has its offspring counters incremented by one. -/
theorem reproduce_spec (self mate : Agent) (jx jy : ℚ) (childId : ℕ) (childHunger0 : ℚ)
    (rawF : Fin 4 → ℚ) (rawC rawL : Fin 3 → ℚ)
    (mF : Fin 4 → ℚ) (mC mL : Fin 3 → ℚ) (mh : ℚ)
    (child self' mate' : Agent)
    (hout : reproduce self mate jx jy childId childHunger0 rawF rawC rawL mF mC mL mh
        = (child, self', mate'))
    (helig1 : can_reproduce self = true) (helig2 : can_reproduce mate = true)
    (hspecies : mate.species = self.species)
    (hdist : sqDist self.pos mate.pos < MATING_RANGE ^ 2)
    (hsF : ∑ i, self.probsForaging i = 1) (hsC : ∑ i, self.probsCombat i = 1)
    (hsL : ∑ i, self.probsFlee i = 1)
    (htF : ∑ i, mate.probsForaging i = 1) (htC : ∑ i, mate.probsCombat i = 1)
    (htL : ∑ i, mate.probsFlee i = 1)
    (hmF : ∀ i, |mF i| ≤ MUTATION_RATE) (hmC : ∀ i, |mC i| ≤ MUTATION_RATE)
    (hmL : ∀ i, |mL i| ≤ MUTATION_RATE) :
    (child.species = self.species ∧ child.species = mate.species) ∧
    (0 ≤ child.pos.1 ∧ child.pos.1 ≤ MAP_WIDTH ∧
     0 ≤ child.pos.2 ∧ child.pos.2 ≤ SCREEN_HEIGHT) ∧
    (∑ i, child.probsForaging i = 1 ∧ ∑ i, child.probsCombat i = 1 ∧
     ∑ i, child.probsFlee i = 1) ∧
    (self'.energy = self.energy - self.max_energy * REPRODUCTION_ENERGY_COST ∧
     self'.hp = self.hp - self.max_hp * REPRODUCTION_HP_COST ∧
     mate'.energy = mate.energy - mate.max_energy * REPRODUCTION_ENERGY_COST ∧
     mate'.hp = mate.hp - mate.max_hp * REPRODUCTION_HP_COST) ∧
    (self'.time_since_last_reproduction = 0 ∧ mate'.time_since_last_reproduction = 0) ∧
    (self'.offspringStat = self.offspringStat + 1 ∧
     self'.total_offspring = self.total_offspring + 1 ∧
     mate'.offspringStat = mate.offspringStat + 1 ∧
     mate'.total_offspring = mate.total_offspring + 1) := by
  have h1 : (reproduce self mate jx jy childId childHunger0 rawF rawC rawL mF mC mL mh).1
      = child := by rw [hout]
  have h2 : (reproduce self mate jx jy childId childHunger0 rawF rawC rawL mF mC mL mh).2.1
      = self' := by rw [hout]
  have h3 : (reproduce self mate jx jy childId childHunger0 rawF rawC rawL mF mC mL mh).2.2
      = mate' := by rw [hout]
  subst h1 h2 h3
  have hb : ((20:ℚ) ≤ MAP_WIDTH - 20) ∧ ((20:ℚ) ≤ SCREEN_HEIGHT - 20) := by
    norm_num [MAP_WIDTH, SCREEN_HEIGHT]
  refine ⟨⟨rfl, by rw [hspecies]; rfl⟩, ?_, ?_, ⟨rfl, rfl, rfl, rfl⟩, ⟨rfl, rfl⟩,
    ⟨rfl, rfl, rfl, rfl⟩⟩
  · have hx := clamp_mem ((self.pos.1 + mate.pos.1) / 2 + jx) 20 (MAP_WIDTH - 20) hb.1
    have hy := clamp_mem ((self.pos.2 + mate.pos.2) / 2 + jy) 20 (SCREEN_HEIGHT - 20) hb.2
    refine ⟨le_trans (by norm_num) hx.1, le_trans hx.2 (by norm_num [MAP_WIDTH]),
      le_trans (by norm_num) hy.1, le_trans hy.2 (by norm_num [SCREEN_HEIGHT])⟩
  · exact ⟨inheritProbs_sum_one (by norm_num) (by norm_num) _ _ _ hsF htF hmF,
      inheritProbs_sum_one (by norm_num) (by norm_num) _ _ _ hsC htC hmC,
      inheritProbs_sum_one (by norm_num) (by norm_num) _ _ _ hsL htL hmL⟩

/-- Witness for C7: two mature, rested, healthy gorillas 20 units apart. -/
theorem reproduce_spec_witness :
    (reproduce wParentA wParentB 0 0 11 (1/2) uniform4 uniform3 uniform3
        (fun _ => 1/20) (fun _ => 1/20) (fun _ => 1/20) 0).1.species = wParentA.species ∧
    ∑ i, (reproduce wParentA wParentB 0 0 11 (1/2) uniform4 uniform3 uniform3
        (fun _ => 1/20) (fun _ => 1/20) (fun _ => 1/20) 0).1.probsForaging i = 1 ∧
    (reproduce wParentA wParentB 0 0 11 (1/2) uniform4 uniform3 uniform3
        (fun _ => 1/20) (fun _ => 1/20) (fun _ => 1/20) 0).2.1.time_since_last_reproduction
      = 0 := by
  have hu4 : (0:ℚ) < ∑ j, uniform4 j := by simp [uniform4]
  have hu3 : (0:ℚ) < ∑ j, uniform3 j := by simp [uniform3]
  have hel : can_reproduce wParentA = true ∧ can_reproduce wParentB = true := by
    constructor <;>
      (simp only [can_reproduce, Bool.and_eq_true, decide_eq_true_eq]
       refine ⟨⟨⟨⟨?_, ?_, ?_⟩, ?_⟩, ?_⟩, ?_⟩ <;>
         first
           | decide
           | norm_num [wParentA, wParentB, wGorilla, initAgent, SPECIES_CONFIG,
               MIN_REPRODUCTION_AGE])
  have habs : ∀ i : Fin 4, |(fun _ : Fin 4 => (1:ℚ)/20) i| ≤ MUTATION_RATE := fun i => by
    rw [abs_of_pos (by norm_num : (0:ℚ) < 1/20)]
    norm_num [MUTATION_RATE]
  have habs3 : ∀ i : Fin 3, |(fun _ : Fin 3 => (1:ℚ)/20) i| ≤ MUTATION_RATE := fun i => by
    rw [abs_of_pos (by norm_num : (0:ℚ) < 1/20)]
    norm_num [MUTATION_RATE]
  have h := reproduce_spec wParentA wParentB 0 0 11 (1/2) uniform4 uniform3 uniform3
      (fun _ => 1/20) (fun _ => 1/20) (fun _ => 1/20) 0
      (reproduce wParentA wParentB 0 0 11 (1/2) uniform4 uniform3 uniform3
        (fun _ => 1/20) (fun _ => 1/20) (fun _ => 1/20) 0).1
      (reproduce wParentA wParentB 0 0 11 (1/2) uniform4 uniform3 uniform3
        (fun _ => 1/20) (fun _ => 1/20) (fun _ => 1/20) 0).2.1
      (reproduce wParentA wParentB 0 0 11 (1/2) uniform4 uniform3 uniform3
        (fun _ => 1/20) (fun _ => 1/20) (fun _ => 1/20) 0).2.2
      rfl hel.1 hel.2 rfl
      (by norm_num [sqDist, wParentA, wParentB, wGorilla, initAgent, MATING_RANGE])
      (random_distribution_sum uniform4 hu4) (random_distribution_sum uniform3 hu3)
      (random_distribution_sum uniform3 hu3) (random_distribution_sum uniform4 hu4)
      (random_distribution_sum uniform3 hu3) (random_distribution_sum uniform3 hu3)
      habs habs3 habs3
  exact ⟨h.1.1, h.2.2.1.1, h.2.2.2.2.1.1⟩

/-- C8: the Aggressive combat strategy executed by an attacker with
attack power 12 whose chosen target (the weakest live enemy within 100
units) lies within 20 units: the defender loses exactly 18 hp
(attack power × 1.5), is forced into the fleeing state with the
attacker's position recorded as its threat position and the attacker
recorded as its last attacker; the attacker's attacks counter
increments, its hp drops by the defender's attack power × 0.5, and it
pays the fixed energy cost of 2. -/
theorem aggressive_attack_spec (agent target : Agent) (others : List Agent)
    (hsel : minByFirst (fun e => e.hp) (others.filter (isLiveEnemyWithin agent 100))
        = some target)
    (hnear : sqDist agent.pos target.pos ≤ 20 ^ 2)
    (hap : agent.cfg.attack_power = 12) :
    (aggressiveExecute agent others).1.hp = agent.hp - target.cfg.attack_power * (1/2) ∧
    (aggressiveExecute agent others).1.energy = agent.energy - 2 ∧
    (aggressiveExecute agent others).1.attacks = agent.attacks + 1 ∧
    (aggressiveExecute agent others).2
      = others.map (fun x => if x.id = target.id then
          { target with
              hp := target.hp - 18
              state := AState.fleeing
              threat_position := some agent.pos
              last_attacker := some agent.id } else x) ∧
    (∀ x ∈ (aggressiveExecute agent others).2, x.id = target.id →
        x.hp = target.hp - 18 ∧ x.state = AState.fleeing ∧
        x.threat_position = some agent.pos ∧ x.last_attacker = some agent.id) := by
  have hex : aggressiveExecute agent others =
      ((aggressiveAttack agent target).1,
        others.map fun x => if x.id = target.id then (aggressiveAttack agent target).2
          else x) := by
    simp only [aggressiveExecute, hsel]
    rw [if_neg (not_lt.mpr hnear)]
  have haa : (aggressiveAttack agent target).2
      = { target with
            hp := target.hp - 18
            state := AState.fleeing
            threat_position := some agent.pos
            last_attacker := some agent.id } := by
    simp only [aggressiveAttack, hap, Agent.mk.injEq]
    norm_num
  refine ⟨by rw [hex]; rfl, by rw [hex]; rfl, by rw [hex]; rfl, ?_, ?_⟩
  · rw [hex, haa]
  · intro x hx hid
    rw [hex] at hx
    simp only [List.mem_map] at hx
    obtain ⟨y, hy, hxy⟩ := hx
    by_cases hyid : y.id = target.id
    · rw [if_pos hyid] at hxy
      subst hxy
      rw [haa]
      exact ⟨rfl, rfl, rfl, rfl⟩
    · rw [if_neg hyid] at hxy
      subst hxy
      exact absurd hid hyid

/-- Witness for C8: the sample gorilla (attack power 12) mauls the weak
chimp standing 10 units away. -/
theorem aggressive_attack_spec_witness :
    (aggressiveExecute wGorilla [wWeakChimp]).1.energy = wGorilla.energy - 2 ∧
    (aggressiveExecute wGorilla [wWeakChimp]).1.attacks = wGorilla.attacks + 1 := by
  have hfil : List.filter (isLiveEnemyWithin wGorilla 100) [wWeakChimp] = [wWeakChimp] := by
    norm_num [List.filter, isLiveEnemyWithin, sqDist, wGorilla, wWeakChimp, wChimp,
      initAgent, SPECIES_CONFIG]
    rfl
  have hsel : minByFirst (fun e => e.hp) (List.filter (isLiveEnemyWithin wGorilla 100)
      [wWeakChimp]) = some wWeakChimp := by
    rw [hfil]
    rfl
  have h := aggressive_attack_spec wGorilla wWeakChimp [wWeakChimp] hsel
      (by norm_num [sqDist, wGorilla, wWeakChimp, wChimp, initAgent]) rfl
  exact ⟨h.2.1, h.2.2.1⟩

/-- C9: a Gorilla (plant diet) for which an adjacent plant resource of
nutrition 30 is the chosen meal (nearest edible resource within 15
units): one `eat` call sets energy to `min max_energy (energy + 30)`
(a strict increase when below max), restores hp by half the nutrition
capped at max hp, increments the meals counter by exactly one, and
removes the resource from the environment, so every subsequent
`get_resources_in_range` query misses it. -/
theorem gorilla_eats_plant_spec (a : Agent) (env : List Resource) (r : Resource)
    (hsp : a.species = Species.Gorilla) (hcfg : a.cfg = SPECIES_CONFIG Species.Gorilla)
    (hsel : minByFirst (fun x => sqDist a.pos x.pos)
        ((get_resources_in_range env a.pos 15).filter
          fun x => inDiet a.cfg x.resource_type) = some r)
    (htype : r.resource_type = ResourceType.plant) (hamt : r.amount = 30)
    (hcount : env.count r = 1)
    (hen : a.energy < a.max_energy) :
    (eat a env).1.energy = min a.max_energy (a.energy + 30) ∧
    a.energy < (eat a env).1.energy ∧
    (eat a env).1.hp = min a.max_hp (a.hp + 15) ∧
    (eat a env).1.meals = a.meals + 1 ∧
    r ∉ (eat a env).2 ∧
    (∀ (p : ℚ × ℚ) (radius : ℚ), r ∉ get_resources_in_range (eat a env).2 p radius) := by
  have hea : eat a env =
      ({ a with
          energy := min a.max_energy (a.energy + r.amount)
          hp := min a.max_hp (a.hp + r.amount * (1/2))
          meals := a.meals + 1 }, remove_resource env r) := by
    simp only [eat, hsel]
  have hnotmem : r ∉ remove_resource env r := by
    have hc : (env.erase r).count r = env.count r - 1 := List.count_erase_self r env
    rw [hcount] at hc
    simp only [remove_resource]
    exact List.count_eq_zero.mp hc
  rw [hea]
  refine ⟨by rw [hamt], ?_, by rw [hamt]; norm_num, rfl, hnotmem, ?_⟩
  · show a.energy < min a.max_energy (a.energy + r.amount)
    rw [hamt]
    exact lt_min hen (by linarith)
  · intro p radius hmem
    exact hnotmem (List.mem_filter.mp hmem).1

/-- Witness for C9: a hungry gorilla five units from a plant of
nutrition 30. -/
theorem gorilla_eats_plant_spec_witness :
    (eat wHungryGorilla [wPlant]).1.energy
        = min wHungryGorilla.max_energy (wHungryGorilla.energy + 30) ∧
    (eat wHungryGorilla [wPlant]).1.meals = wHungryGorilla.meals + 1 ∧
    wPlant ∉ (eat wHungryGorilla [wPlant]).2 := by
  have hrange : get_resources_in_range [wPlant] wHungryGorilla.pos 15 = [wPlant] := by
    norm_num [get_resources_in_range, List.filter, sqDist, wHungryGorilla, wGorilla, wPlant,
      initAgent]
  have hsel : minByFirst (fun x => sqDist wHungryGorilla.pos x.pos)
      ((get_resources_in_range [wPlant] wHungryGorilla.pos 15).filter
        fun x => inDiet wHungryGorilla.cfg x.resource_type) = some wPlant := by
    rw [hrange]
    rfl
  have h := gorilla_eats_plant_spec wHungryGorilla [wPlant] wPlant rfl rfl hsel rfl rfl
      (by simp [wPlant])
      (by norm_num [wHungryGorilla, wGorilla, initAgent, SPECIES_CONFIG])
  exact ⟨h.1, h.2.2.2.1, h.2.2.2.2.1⟩

end PrimateSim
